import Mathlib

set_option autoImplicit false

namespace NxSim

/-! Shallow embedding of the nxsim simulation kernel (src/nxsim): the agent
registries of core.py and environment.py, the State value type, the monitor
tally loop of monitors.py, agent construction and process registration of
agents.py, the node management of BaseEnvironmentAgent, and the discrete event
scheduler described in the specification. Python dicts are modelled as
insertion ordered association lists, Python exceptions as an error type, and
Python object identity as an explicit allocation tag (ref). -/

/-- Python exception kinds raised by the embedded code paths. -/
inductive PyErr where
  | keyError
  | assertionError
  | notImplementedError
  | typeError
  deriving DecidableEq, Repr

/-- Python dict read d[k], returning none when the key is absent. -/
def dictLookup {K A : Type} [DecidableEq K] : List (K × A) → K → Option A
  | [], _ => none
  | (k, a) :: rest, key => if k = key then some a else dictLookup rest key

/-- Python dict assignment d[k] = v: overwrites the first binding in place or
appends a new binding at the end (CPython insertion order semantics). -/
def dictSet {K A : Type} [DecidableEq K] : List (K × A) → K → A → List (K × A)
  | [], key, v => [(key, v)]
  | (k, a) :: rest, key, v =>
    if k = key then (key, v) :: rest else (k, a) :: dictSet rest key v

/-- Python dict deletion del d[k]: removes the first binding with the key. -/
def dictDel {K A : Type} [DecidableEq K] : List (K × A) → K → List (K × A)
  | [], _ => []
  | (k, a) :: rest, key => if k = key then rest else (k, a) :: dictDel rest key

/-- Keys of a dict in insertion order. -/
def dictKeys {K A : Type} (d : List (K × A)) : List K := d.map Prod.fst

theorem dictLookup_dictSet_self {K A : Type} [DecidableEq K]
    (d : List (K × A)) (k : K) (v : A) : dictLookup (dictSet d k v) k = some v := by
  induction d with
  | nil => simp [dictSet, dictLookup]
  | cons p rest ih =>
    obtain ⟨k1, a1⟩ := p
    by_cases h : k1 = k
    · subst h; simp [dictSet, dictLookup]
    · simp [dictSet, dictLookup, h, ih]

theorem dictLookup_dictSet_ne {K A : Type} [DecidableEq K]
    (d : List (K × A)) (k k2 : K) (v : A) (h : k ≠ k2) :
    dictLookup (dictSet d k v) k2 = dictLookup d k2 := by
  induction d with
  | nil => simp [dictSet, dictLookup, h]
  | cons p rest ih =>
    obtain ⟨k1, a1⟩ := p
    by_cases h1 : k1 = k
    · subst h1; simp [dictSet, dictLookup, h]
    · simp [dictSet, dictLookup, h1, ih]

theorem mem_dictSet {K A : Type} [DecidableEq K]
    (d : List (K × A)) (k : K) (v : A) (p : K × A) (hp : p ∈ dictSet d k v) :
    p = (k, v) ∨ p ∈ d := by
  induction d with
  | nil => simpa [dictSet] using hp
  | cons q rest ih =>
    obtain ⟨k1, a1⟩ := q
    by_cases h1 : k1 = k
    · subst h1
      simp [dictSet] at hp
      rcases hp with h | h
      · exact Or.inl (by simp [h])
      · exact Or.inr (List.mem_cons_of_mem _ h)
    · simp [dictSet, h1] at hp
      rcases hp with h | h
      · exact Or.inr (by simp [h])
      · rcases ih h with h2 | h2
        · exact Or.inl h2
        · exact Or.inr (List.mem_cons_of_mem _ h2)

theorem mem_dictDel {K A : Type} [DecidableEq K]
    (d : List (K × A)) (k : K) (p : K × A) (hp : p ∈ dictDel d k) : p ∈ d := by
  induction d with
  | nil => simp [dictDel] at hp
  | cons q rest ih =>
    obtain ⟨k1, a1⟩ := q
    by_cases h1 : k1 = k
    · subst h1
      simp [dictDel] at hp
      exact List.mem_cons_of_mem _ hp
    · simp [dictDel, h1] at hp
      rcases hp with h | h
      · simp [h]
      · exact List.mem_cons_of_mem _ (ih h)

theorem dictKeys_dictSet_mem {K A : Type} [DecidableEq K]
    (d : List (K × A)) (k : K) (v : A) (h : k ∈ dictKeys d) :
    dictKeys (dictSet d k v) = dictKeys d := by
  induction d with
  | nil => simp [dictKeys] at h
  | cons q rest ih =>
    obtain ⟨k1, a1⟩ := q
    by_cases h1 : k1 = k
    · subst h1; simp [dictSet, dictKeys]
    · have h0 : k = k1 ∨ k ∈ dictKeys rest := by simpa [dictKeys] using h
      have h2 : k ∈ dictKeys rest := by
        rcases h0 with h0 | h0
        · exact absurd h0.symm h1
        · exact h0
      have h3 := ih h2
      simp [dictSet, dictKeys, h1] at h3 ⊢
      exact h3

/-! ## State model

Modelled from the spec: BaseState is imported in nxsim/__init__.py from
nxsim.agents but its definition is absent from src. Spec sections 3 and 4.4
describe it: an immutable value with a unique identifier (a string or an
integer) and free form descriptive metadata; equality and hashing are defined
solely by the identifier; construction fails with a TypeError equivalent when
the identifier is neither a string nor an integer. The ref field models Python
object identity (allocation tag); it participates in neither equality nor
hashing. -/

/-- Identifier values a State may carry: a string or an integer. -/
inductive Ident where
  | s : String → Ident
  | i : Int → Ident
  deriving DecidableEq, Repr

/-- Argument passed to the State constructor as the identifier: a string, an
integer, or a value of any other Python type. -/
inductive IdentArg where
  | s : String → IdentArg
  | i : Int → IdentArg
  | other : IdentArg
  deriving DecidableEq, Repr

/-- Modelled from the spec: the State value type (see the section comment
above). -/
structure BaseState where
  ref : Nat
  ident : Ident
  descr : String
  deriving DecidableEq, Repr

/-- Modelled from the spec: State construction validates the identifier and
fails with a TypeError when it is neither a string nor an integer. -/
def BaseState.make (ref : Nat) (ident : IdentArg) (descr : String) :
    Except PyErr BaseState :=
  match ident with
  | .s v => .ok ⟨ref, .s v, descr⟩
  | .i v => .ok ⟨ref, .i v, descr⟩
  | .other => .error .typeError

/-- Modelled from the spec: State equality compares identifiers only. -/
def stateEq (a b : BaseState) : Bool := a.ident == b.ident

/-- Hash code of an identifier; a concrete stand in for the Python hash. -/
def identHash : Ident → Nat
  | .s v => 2 * v.length
  | .i v => 2 * v.natAbs + 1

/-- Modelled from the spec: the State hash is a function of the identifier
alone. -/
def stateHash (a : BaseState) : Nat := identHash a.ident

/-- C5: the State value type exists as a pure value type whose construction
fails with a TypeError equivalent when the identifier is neither a string nor
an integer, and whose equality and hashing are defined solely by that
identifier: construction succeeds exactly on string and integer identifiers,
equality holds precisely when the identifiers agree, and states differing only
in object identity and metadata are equal and hash alike. -/
theorem baseState_construction_and_equality :
    (∀ r d, BaseState.make r .other d = .error .typeError) ∧
    (∀ r d v, BaseState.make r (.s v) d = .ok ⟨r, .s v, d⟩) ∧
    (∀ r d v, BaseState.make r (.i v) d = .ok ⟨r, .i v, d⟩) ∧
    (∀ a b : BaseState, stateEq a b = true ↔ a.ident = b.ident) ∧
    (∀ r1 r2 d1 d2 i, stateEq ⟨r1, i, d1⟩ ⟨r2, i, d2⟩ = true ∧
      stateHash ⟨r1, i, d1⟩ = stateHash ⟨r2, i, d2⟩) := by
  refine ⟨fun r d => rfl, fun r d v => rfl, fun r d v => rfl, ?_, ?_⟩
  · intro a b
    simp [stateEq]
  · intro r1 r2 d1 d2 i
    simp [stateEq, stateHash]

/-! ## Agents and registries (src/nxsim/core.py, src/nxsim/environment.py) -/

/-- Agent object as stored in the registries: a Python object identity tag, the
recorded agent id (agents.py line 36 sets self.id = agent_id) and the current
state (line 37 sets self.state = state). -/
structure PyAgent where
  ref : Nat
  id : Option Ident
  state : Option BaseState
  deriving DecidableEq, Repr

/-- core.py BaseEnvironment (lines 20 and 84): the structure dict holding
agents keyed by uid. -/
structure CBaseEnv (K : Type) where
  struct : List (K × PyAgent)
  deriving DecidableEq, Repr

/-- core.py BaseEnvironment.__getitem__ lines 171-173: return structure[key],
a KeyError when the key is absent. -/
def CBaseEnv.getitem {K : Type} [DecidableEq K] (e : CBaseEnv K) (k : K) :
    Except PyErr PyAgent :=
  match dictLookup e.struct k with
  | some a => .ok a
  | none => .error .keyError

/-- core.py BaseEnvironment.__setitem__ lines 175-179: assert the key is not
already among structure.keys(), then store the agent. The scheduling call
self.process(agent.run()) on line 179 is modelled separately below for the
claims about process registration. -/
def CBaseEnv.setitem {K : Type} [DecidableEq K] (e : CBaseEnv K) (k : K)
    (a : PyAgent) : Except PyErr (CBaseEnv K) :=
  match dictLookup e.struct k with
  | some _ => .error .assertionError
  | none => .ok ⟨dictSet e.struct k a⟩

/-- core.py BaseNetworkEnvironment: a networkx 1.x graph whose node dict
(structure.node) maps a node id to its stored value. __setitem__ line 268
assigns the agent object itself as the value of structure.node[node_id], so
the bindings written by setitem are agent valued; only those bindings are
modelled here. -/
structure CNetEnv (N : Type) where
  nodeDict : List (N × PyAgent)
  deriving DecidableEq, Repr

/-- core.py BaseNetworkEnvironment.__getitem__ lines 262-264: return
structure.node[node_id], a KeyError when the node id is absent from the node
dict. -/
def CNetEnv.getitem {N : Type} [DecidableEq N] (e : CNetEnv N) (n : N) :
    Except PyErr PyAgent :=
  match dictLookup e.nodeDict n with
  | some a => .ok a
  | none => .error .keyError

/-- core.py BaseNetworkEnvironment.__setitem__ lines 266-269: the plain dict
assignment structure.node[node_id] = agent, with no occupancy check and no
node existence check (the TODO comment on line 267 records the missing
check). -/
def CNetEnv.setitem {N : Type} [DecidableEq N] (e : CNetEnv N) (n : N)
    (a : PyAgent) : CNetEnv N :=
  ⟨dictSet e.nodeDict n a⟩

/-- environment.py NetworkEnvironment: a networkx 1.x graph with its node
list, the agent entries of the per node attribute dicts (what
structure.node[n] holds under the agent key), and the agent entries written
into the per node adjacency dicts (what structure[n] holds under the agent
key). In networkx 1.x, G[n] is the adjacency dict of n while G.node[n] is the
attribute dict of n; they are distinct dicts. -/
structure ENetEnv (N : Type) where
  nodes : List N
  nodeAgent : List (N × PyAgent)
  adjAgent : List (N × PyAgent)
  deriving DecidableEq, Repr

/-- environment.py NetworkEnvironment.__getitem__ lines 111-113: read
structure.node[node_id][agent key] from the node attribute dict; a KeyError
when the node or its agent entry is absent. -/
def ENetEnv.getitem {N : Type} [DecidableEq N] (e : ENetEnv N) (n : N) :
    Except PyErr PyAgent :=
  if n ∈ e.nodes then
    match dictLookup e.nodeAgent n with
    | some a => .ok a
    | none => .error .keyError
  else .error .keyError

/-- environment.py NetworkEnvironment.__setitem__ lines 115-118: the
assignment structure[node_id][agent key] = agent writes into the adjacency
dict of the node, not into its attribute dict; a KeyError when the node is
absent. -/
def ENetEnv.setitem {N : Type} [DecidableEq N] (e : ENetEnv N) (n : N)
    (a : PyAgent) : Except PyErr (ENetEnv N) :=
  if n ∈ e.nodes then .ok { e with adjAgent := dictSet e.adjAgent n a }
  else .error .keyError

/-- Sample agent used in concrete counterexamples and witnesses. -/
def agA : PyAgent := ⟨10, some (.i 0), none⟩

/-- Second sample agent, distinct from agA by object identity. -/
def agB : PyAgent := ⟨11, some (.i 0), none⟩

/-- C1 counterexample: in environment.py NetworkEnvironment, on the one node
graph with node 0 and no stored agent entries, set(0, agA) succeeds and writes
the agent into the adjacency dict, yet the following get(0) raises a KeyError
instead of returning agA. -/
theorem networkEnvironment_set_get_keyError :
    ENetEnv.setitem (⟨[0], [], []⟩ : ENetEnv Nat) 0 agA =
      .ok ⟨[0], [], [(0, agA)]⟩ ∧
    ENetEnv.getitem (⟨[0], [], [(0, agA)]⟩ : ENetEnv Nat) 0 =
      .error .keyError := by
  constructor
  · rfl
  · rfl

/-- C1 amended: set followed immediately by get returns the identical agent in
core.py BaseEnvironment (when the set succeeds) and in core.py
BaseNetworkEnvironment (always); in environment.py NetworkEnvironment a
successful set leaves the result of get unchanged, because set writes into the
adjacency dict while get reads the node attribute dict, so get never returns
the agent just set. -/
theorem set_get_identity_amended {K N M : Type} [DecidableEq K]
    [DecidableEq N] [DecidableEq M] (e1 : CBaseEnv K) (k : K) (e2 : CNetEnv N)
    (n : N) (e3 : ENetEnv M) (m : M) (a : PyAgent) :
    (∀ e1w, e1.setitem k a = .ok e1w → e1w.getitem k = .ok a) ∧
    ((e2.setitem n a).getitem n = .ok a) ∧
    (∀ e3w, e3.setitem m a = .ok e3w → e3w.getitem m = e3.getitem m) := by
  refine ⟨?_, ?_, ?_⟩
  · intro e1w hset
    unfold CBaseEnv.setitem at hset
    cases hlk : dictLookup e1.struct k with
    | some a0 => rw [hlk] at hset; cases hset
    | none =>
      rw [hlk] at hset
      cases hset
      unfold CBaseEnv.getitem
      rw [dictLookup_dictSet_self]
  · unfold CNetEnv.setitem CNetEnv.getitem
    rw [dictLookup_dictSet_self]
  · intro e3w hset
    unfold ENetEnv.setitem at hset
    by_cases hm : m ∈ e3.nodes
    · rw [if_pos hm] at hset
      cases hset
      unfold ENetEnv.getitem
      rw [if_pos hm]
    · rw [if_neg hm] at hset; cases hset

/-- Witness for the C1 amended theorem at concrete registries. -/
theorem set_get_identity_amended_witness :
    CBaseEnv.getitem (⟨[(0, agA)]⟩ : CBaseEnv Nat) 0 = .ok agA ∧
    (CNetEnv.setitem (⟨[]⟩ : CNetEnv Nat) 0 agA).getitem 0 = .ok agA ∧
    ENetEnv.getitem (⟨[0], [], [(0, agA)]⟩ : ENetEnv Nat) 0 =
      ENetEnv.getitem (⟨[0], [], []⟩ : ENetEnv Nat) 0 := by
  have h := set_get_identity_amended (⟨[]⟩ : CBaseEnv Nat) 0
    (⟨[]⟩ : CNetEnv Nat) 0 (⟨[0], [], []⟩ : ENetEnv Nat) 0 agA
  exact ⟨h.1 ⟨[(0, agA)]⟩ rfl, h.2.1, h.2.2 ⟨[0], [], [(0, agA)]⟩ rfl⟩

/-- C3 counterexample: set on an already occupied key does not fail in the
graph backed registries. In core.py BaseNetworkEnvironment, node 0 already
holds agA, yet set(0, agB) succeeds and silently replaces the binding; in
environment.py NetworkEnvironment, node 0 already holds agA in its attribute
dict, yet set(0, agB) succeeds as well. -/
theorem graph_setitem_overwrites :
    CNetEnv.setitem (⟨[(0, agA)]⟩ : CNetEnv Nat) 0 agB = ⟨[(0, agB)]⟩ ∧
    ENetEnv.setitem (⟨[0], [(0, agA)], []⟩ : ENetEnv Nat) 0 agB =
      .ok ⟨[0], [(0, agA)], [(0, agB)]⟩ := by
  constructor
  · rfl
  · rfl

/-- C3 amended: only core.py BaseEnvironment rejects a set on an occupied key
(with the AssertionError of the assert on line 177, leaving the registry
untouched since the error is raised before any mutation); core.py
BaseNetworkEnvironment silently replaces the existing binding, and
environment.py NetworkEnvironment accepts any set on an existing node with no
occupancy check. -/
theorem duplicate_key_behavior_amended {K N M : Type} [DecidableEq K]
    [DecidableEq N] [DecidableEq M] (e1 : CBaseEnv K) (k : K) (a0 a : PyAgent)
    (e2 : CNetEnv N) (n : N) (e3 : ENetEnv M) (m : M) :
    (dictLookup e1.struct k = some a0 →
      e1.setitem k a = .error .assertionError) ∧
    (dictLookup e2.nodeDict n = some a0 → (e2.setitem n a).getitem n = .ok a) ∧
    (m ∈ e3.nodes → ∃ e3w, e3.setitem m a = .ok e3w) := by
  refine ⟨?_, ?_, ?_⟩
  · intro hocc
    unfold CBaseEnv.setitem
    rw [hocc]
  · intro _
    unfold CNetEnv.setitem CNetEnv.getitem
    rw [dictLookup_dictSet_self]
  · intro hm
    exact ⟨_, by unfold ENetEnv.setitem; rw [if_pos hm]⟩

/-- Witness for the C3 amended theorem at concrete registries. -/
theorem duplicate_key_behavior_amended_witness :
    CBaseEnv.setitem (⟨[(0, agA)]⟩ : CBaseEnv Nat) 0 agB =
      .error .assertionError ∧
    (CNetEnv.setitem (⟨[(0, agA)]⟩ : CNetEnv Nat) 0 agB).getitem 0 = .ok agB ∧
    ∃ e3w, ENetEnv.setitem (⟨[0], [(0, agA)], []⟩ : ENetEnv Nat) 0 agB =
      .ok e3w := by
  have h := duplicate_key_behavior_amended (⟨[(0, agA)]⟩ : CBaseEnv Nat) 0
    agA agB (⟨[(0, agA)]⟩ : CNetEnv Nat) 0 (⟨[0], [(0, agA)], []⟩ : ENetEnv Nat) 0
  exact ⟨h.1 rfl, h.2.1 rfl, h.2.2 (by decide)⟩

/-! ## State queries (core.py filter, environment.py list) -/

/-- Python equality test agent.state == state for a State argument: None
compares unequal to any State, and State equality is identifier based
(modelled from the spec, see the State section). -/
def pyStateEq (os : Option BaseState) (s : BaseState) : Bool :=
  match os with
  | none => false
  | some t => stateEq t s

/-- Python identity test agent.state is state: object identity, modelled by
the ref tag; None is never the same object as a State. -/
def pyStateIs (os : Option BaseState) (s : BaseState) : Bool :=
  match os with
  | none => false
  | some t => t.ref == s.ref

/-- core.py BaseEnvironment.filter lines 126-143 applied to the agents of the
environment: with state None return all agents, otherwise keep the agents
whose state compares equal (==) to the argument. -/
def coreFilter (agents : List PyAgent) : Option BaseState → List PyAgent
  | none => agents
  | some s => agents.filter (fun a => pyStateEq a.state s)

/-- environment.py NetworkEnvironment.list lines 85-101 applied to the agents
of the environment: with state None return all agents, otherwise keep the
agents whose state IS the argument (object identity, line 101). -/
def envList (agents : List PyAgent) : Option BaseState → List PyAgent
  | none => agents
  | some s => agents.filter (fun a => pyStateIs a.state s)

/-- C2 counterexample: an agent whose state has the same identifier as the
query state but is a different object. Its state compares equal to the query
(identifier based equality), yet environment.py list returns the empty list,
because list filters by object identity. -/
theorem envList_identity_not_ident_eq :
    pyStateEq (some ⟨1, .i 0, "A"⟩) ⟨2, .i 0, "A"⟩ = true ∧
    envList [⟨10, some (.i 5), some ⟨1, .i 0, "A"⟩⟩] (some ⟨2, .i 0, "A"⟩) =
      [] := by
  constructor
  · rfl
  · rfl

/-- C2 amended: with a None argument both queries return all registered
agents; with a State argument, core.py filter returns exactly the agents whose
state compares equal to the argument by identifier, while environment.py list
returns exactly the agents whose state is the very same object as the argument
(object identity), not those merely equal by identifier. -/
theorem filter_list_characterization (agents : List PyAgent) (s : BaseState)
    (a : PyAgent) :
    (coreFilter agents none = agents) ∧
    (envList agents none = agents) ∧
    (a ∈ coreFilter agents (some s) ↔
      a ∈ agents ∧ ∃ t, a.state = some t ∧ t.ident = s.ident) ∧
    (a ∈ envList agents (some s) ↔
      a ∈ agents ∧ ∃ t, a.state = some t ∧ t.ref = s.ref) := by
  refine ⟨rfl, rfl, ?_, ?_⟩
  · rw [show coreFilter agents (some s) =
        agents.filter (fun a => pyStateEq a.state s) from rfl]
    rw [List.mem_filter]
    constructor
    · rintro ⟨hmem, hp⟩
      refine ⟨hmem, ?_⟩
      cases hst : a.state with
      | none => rw [hst] at hp; simp [pyStateEq] at hp
      | some t =>
        rw [hst] at hp
        simp only [pyStateEq, stateEq, beq_iff_eq] at hp
        exact ⟨t, rfl, hp⟩
    · rintro ⟨hmem, t, hst, hid⟩
      exact ⟨hmem, by simp [pyStateEq, hst, stateEq, hid]⟩
  · rw [show envList agents (some s) =
        agents.filter (fun a => pyStateIs a.state s) from rfl]
    rw [List.mem_filter]
    constructor
    · rintro ⟨hmem, hp⟩
      refine ⟨hmem, ?_⟩
      cases hst : a.state with
      | none => rw [hst] at hp; simp [pyStateIs] at hp
      | some t =>
        rw [hst] at hp
        simp only [pyStateIs, beq_iff_eq] at hp
        exact ⟨t, rfl, hp⟩
    · rintro ⟨hmem, t, hst, hid⟩
      exact ⟨hmem, by simp [pyStateIs, hst, hid]⟩

/-! ## Topology node management (agents.py BaseEnvironmentAgent, simulation.py) -/

/-- Node dict of the global topology graph (networkx 1.x G.node): node id to
the optional agent stored under the agent attribute key (none when the node
carries no agent yet). -/
structure Topo where
  nodes : List (Nat × Option PyAgent)
  deriving DecidableEq, Repr

/-- agents.py BaseEnvironmentAgent.add_node lines 139-161: the id of the new
agent is the current node count (line 158), the agent is constructed with that
id (line 159; BaseAgent.__init__ line 36 records it as self.id), and line 160
stores it under the agent attribute of that node; networkx 1.x add_node
updates the attribute dict in place when the node already exists. ref models
the identity of the freshly constructed agent and st its initial state. -/
def addNode (t : Topo) (ref : Nat) (st : Option BaseState) : Topo × Nat :=
  let agentId := t.nodes.length
  (⟨dictSet t.nodes agentId (some ⟨ref, some (.i agentId), st⟩)⟩, agentId)

/-- agents.py BaseAgent.remove_node lines 96-104: G.remove_node(agent_id)
removes the node together with its attribute dict. -/
def removeNode (t : Topo) (n : Nat) : Topo := ⟨dictDel t.nodes n⟩

/-- simulation.py NetworkSimulation.setup_network_agents lines 87-91: for
every node i of the graph, store a fresh agent constructed with agent_id = i
under the agent attribute of node i. refOf gives the identity of the agent
built for a node and stOf its deep copied initial state. -/
def setupNetworkAgents (t : Topo) (refOf : Nat → Nat)
    (stOf : Nat → Option BaseState) : Topo :=
  ⟨(t.nodes.map Prod.fst).foldl
    (fun ns i => dictSet ns i (some ⟨refOf i, some (.i i), stOf i⟩)) t.nodes⟩

/-- Registry invariant of the spec: a node entry that carries an agent carries
an agent whose recorded id equals the node key. -/
def entryMatchesB (p : Nat × Option PyAgent) : Bool :=
  match p.2 with
  | none => true
  | some a => a.id == some (.i p.1)

/-- Every node entry of the topology satisfies the key equals id invariant. -/
def idMatches (t : Topo) : Prop := ∀ p ∈ t.nodes, entryMatchesB p = true

/-- Topology reached by setting up agents on nodes 0, 1, 2 and then removing
node 0, as an environment agent can do mid run. -/
def topoCE : Topo :=
  removeNode
    (setupNetworkAgents ⟨[(0, none), (1, none), (2, none)]⟩
      (fun i => 10 + i) (fun _ => none)) 0

/-- C4 counterexample: on topoCE (nodes 1 and 2 occupied after node 0 was
removed), add_node computes the new key as the node count 2, which is already
occupied by the agent with identity 12; the call succeeds and silently
replaces that agent with the new agent of identity 99. So add_node does bind a
new agent to a key already occupied by a different agent. -/
theorem addNode_reuses_occupied_key :
    (addNode topoCE 99 none).2 = 2 ∧
    dictLookup topoCE.nodes 2 = some (some ⟨12, some (.i 2), none⟩) ∧
    dictLookup (addNode topoCE 99 none).1.nodes 2 =
      some (some ⟨99, some (.i 2), none⟩) ∧
    (⟨99, some (.i 2), none⟩ : PyAgent) ≠ ⟨12, some (.i 2), none⟩ := by
  refine ⟨rfl, rfl, rfl, by decide⟩

theorem entryMatchesB_foldl_setup (keys : List Nat) (refOf : Nat → Nat)
    (stOf : Nat → Option BaseState) (ns : List (Nat × Option PyAgent))
    (h : ∀ p ∈ ns, entryMatchesB p = true) :
    ∀ p ∈ keys.foldl
      (fun ns i => dictSet ns i (some ⟨refOf i, some (.i i), stOf i⟩)) ns,
      entryMatchesB p = true := by
  induction keys generalizing ns with
  | nil => exact h
  | cons i rest ih =>
    intro p hp
    refine ih _ ?_ p hp
    intro q hq
    rcases mem_dictSet _ _ _ _ hq with h1 | h1
    · subst h1; simp [entryMatchesB]
    · exact h q h1

/-- C4 amended: every node key that carries an agent carries an agent whose
recorded id equals that key, and this invariant is preserved by add_node,
remove_node and setup_network_agents; but add_node does not avoid occupied
keys: it always uses the current node count as the new key, which after
earlier removals can be an occupied key, and the agent stored there is then
silently replaced (by a new agent whose id still equals the key). -/
theorem idMatches_preserved (t : Topo) (h : idMatches t) (ref k : Nat)
    (st : Option BaseState) (refOf : Nat → Nat)
    (stOf : Nat → Option BaseState) :
    idMatches (addNode t ref st).1 ∧ idMatches (removeNode t k) ∧
    idMatches (setupNetworkAgents t refOf stOf) := by
  refine ⟨?_, ?_, ?_⟩
  · intro p hp
    rcases mem_dictSet _ _ _ _ hp with h1 | h1
    · subst h1; simp [entryMatchesB]
    · exact h p h1
  · intro p hp
    exact h p (mem_dictDel _ _ _ hp)
  · exact entryMatchesB_foldl_setup _ refOf stOf _ h

/-- Witness for the C4 amended theorem at a concrete topology. -/
theorem idMatches_preserved_witness :
    idMatches (addNode ⟨[(0, some ⟨10, some (.i 0), none⟩)]⟩ 99 none).1 ∧
    idMatches (removeNode ⟨[(0, some ⟨10, some (.i 0), none⟩)]⟩ 0) ∧
    idMatches (setupNetworkAgents ⟨[(0, some ⟨10, some (.i 0), none⟩)]⟩
      (fun i => 20 + i) (fun _ => none)) :=
  idMatches_preserved ⟨[(0, some ⟨10, some (.i 0), none⟩)]⟩
    (by unfold idMatches; decide)
    99 0 none (fun i => 20 + i) (fun _ => none)

/-! ## StateMonitor tally (src/nxsim/monitors.py) -/

theorem dictKeys_append {K A : Type} (d1 d2 : List (K × A)) :
    dictKeys (d1 ++ d2) = dictKeys d1 ++ dictKeys d2 := by
  simp [dictKeys]

theorem dictSet_not_mem {K A : Type} [DecidableEq K]
    (d : List (K × A)) (k : K) (v : A) (h : k ∉ dictKeys d) :
    dictSet d k v = d ++ [(k, v)] := by
  induction d with
  | nil => rfl
  | cons p rest ih =>
    obtain ⟨k1, a1⟩ := p
    have h1 : k1 ≠ k := by
      intro he; exact h (by simp [dictKeys, he])
    have h2 : k ∉ dictKeys rest := by
      intro he; exact h (by simp [dictKeys] at he ⊢; exact Or.inr he)
    simp [dictSet, h1, ih h2]

theorem dictLookup_append_right {K A : Type} [DecidableEq K]
    (d1 d2 : List (K × A)) (k : K) (h : k ∉ dictKeys d1) :
    dictLookup (d1 ++ d2) k = dictLookup d2 k := by
  induction d1 with
  | nil => rfl
  | cons p rest ih =>
    obtain ⟨k1, a1⟩ := p
    have h1 : k1 ≠ k := by
      intro he; exact h (by simp [dictKeys, he])
    have h2 : k ∉ dictKeys rest := by
      intro he; exact h (by simp [dictKeys] at he ⊢; exact Or.inr he)
    simp [dictLookup, h1, ih h2]

theorem dictSet_append_right {K A : Type} [DecidableEq K]
    (d1 d2 : List (K × A)) (k : K) (v : A) (h : k ∉ dictKeys d1) :
    dictSet (d1 ++ d2) k v = d1 ++ dictSet d2 k v := by
  induction d1 with
  | nil => rfl
  | cons p rest ih =>
    obtain ⟨k1, a1⟩ := p
    have h1 : k1 ≠ k := by
      intro he; exact h (by simp [dictKeys, he])
    have h2 : k ∉ dictKeys rest := by
      intro he; exact h (by simp [dictKeys] at he ⊢; exact Or.inr he)
    simp [dictSet, h1, ih h2]

/-- monitors.py StateMonitor.run line 22: the tally dict comprehension keyed
by str(state), one empty series per distinct key (a later duplicate key
resets the same entry to a fresh empty list). strOf stands for the Python str
function on states. -/
def tallyInit (strOf : BaseState → String) (states : List BaseState) :
    List (String × List Nat) :=
  states.foldl (fun t s => dictSet t (strOf s) []) []

/-- monitors.py StateMonitor.run line 26: tally[str(state)].append(count); a
KeyError when the key is absent from the tally dict. -/
def tallyAppend (t : List (String × List Nat)) (key : String) (c : Nat) :
    Except PyErr (List (String × List Nat)) :=
  match dictLookup t key with
  | some series => .ok (dictSet t key (series ++ [c]))
  | none => .error .keyError

/-- monitors.py StateMonitor.run lines 24-26: one pass of the sampling loop
body, appending the count of every tracked state to the series stored under
its str key, in list order. c s stands for len(self.env.list(state=s)) at this
tick. -/
def tallyTick (strOf : BaseState → String) (c : BaseState → Nat) :
    List BaseState → List (String × List Nat) →
      Except PyErr (List (String × List Nat))
  | [], t => .ok t
  | s :: rest, t =>
    match tallyAppend t (strOf s) (c s) with
    | .error e => .error e
    | .ok t1 => tallyTick strOf c rest t1

/-- monitors.py StateMonitor.run lines 21-27 at tick granularity: build the
starting tally, then run n sampling iterations, where countAt gives the
registry counts observed at each tick. -/
def runTicks (strOf : BaseState → String) (countAt : Nat → BaseState → Nat)
    (states : List BaseState) : Nat → Except PyErr (List (String × List Nat))
  | 0 => .ok (tallyInit strOf states)
  | n + 1 =>
    match runTicks strOf countAt states n with
    | .error e => .error e
    | .ok t => tallyTick strOf (countAt n) states t

/-- Stand in for the Python str function on states, used for the concrete
tallies below; the monitor model is stated for an arbitrary such function. -/
def identStr (s : BaseState) : String :=
  match s.ident with
  | .s v => v
  | .i _ => "int"

/-- Tracked state with identifier A. -/
def stateA : BaseState := ⟨1, .s "A", ""⟩

/-- Tracked state with identifier B. -/
def stateB : BaseState := ⟨2, .s "B", ""⟩

/-- C6 counterexample: when the tracked list names the same state twice, a
single sampling tick appends two counts to that state series and one count to
the other, so the series lengths are 2 and 1 after one tick and are not in
lock step. -/
theorem stateMonitor_duplicate_state_series :
    runTicks identStr (fun _ _ => 0) [stateA, stateA, stateB] 1 =
      .ok [("A", [0, 0]), ("B", [0])] ∧
    ([("A", [0, 0]), ("B", [0])] : List (String × List Nat)).map
      (fun p => p.2.length) = [2, 1] := by
  constructor
  · rfl
  · rfl

theorem tallyInit_fresh (strOf : BaseState → String) :
    ∀ (states : List BaseState) (acc : List (String × List Nat)),
      (dictKeys acc ++ states.map strOf).Nodup →
      states.foldl (fun t s => dictSet t (strOf s) []) acc =
        acc ++ states.map (fun s => (strOf s, [])) := by
  intro states
  induction states with
  | nil => intro acc _; simp
  | cons s rest ih =>
    intro acc h
    have hnd := h
    rw [List.nodup_append] at hnd
    have hmem : strOf s ∉ dictKeys acc := fun hin =>
      hnd.2.2 hin (by simp)
    have hstep : dictSet acc (strOf s) [] = acc ++ [(strOf s, [])] :=
      dictSet_not_mem _ _ _ hmem
    have hnext : (dictKeys (acc ++ [(strOf s, [])]) ++ rest.map strOf).Nodup := by
      rw [dictKeys_append]
      have : dictKeys acc ++ dictKeys [(strOf s, ([] : List Nat))] ++
          rest.map strOf = dictKeys acc ++ (s :: rest).map strOf := by
        simp [dictKeys]
      rw [this]
      exact h
    calc (s :: rest).foldl (fun t s => dictSet t (strOf s) []) acc
        = rest.foldl (fun t s => dictSet t (strOf s) [])
            (acc ++ [(strOf s, [])]) := by rw [List.foldl_cons, hstep]
      _ = (acc ++ [(strOf s, [])]) ++ rest.map (fun s => (strOf s, [])) :=
          ih _ hnext
      _ = acc ++ (s :: rest).map (fun s => (strOf s, [])) := by simp

theorem tallyTick_aligned (strOf : BaseState → String) (c : BaseState → Nat) :
    ∀ (states : List BaseState) (pre : List (String × List Nat))
      (ser : BaseState → List Nat),
      (dictKeys pre ++ states.map strOf).Nodup →
      tallyTick strOf c states
        (pre ++ states.map (fun s => (strOf s, ser s))) =
        .ok (pre ++ states.map (fun s => (strOf s, ser s ++ [c s]))) := by
  intro states
  induction states with
  | nil => intro pre ser _; simp [tallyTick]
  | cons s rest ih =>
    intro pre ser h
    have hnd := h
    rw [List.nodup_append] at hnd
    have hmem : strOf s ∉ dictKeys pre := fun hin =>
      hnd.2.2 hin (by simp)
    have hlook : dictLookup
        (pre ++ (strOf s, ser s) :: rest.map (fun s => (strOf s, ser s)))
        (strOf s) = some (ser s) := by
      rw [dictLookup_append_right pre _ (strOf s) hmem]
      simp [dictLookup]
    have hset : dictSet
        (pre ++ (strOf s, ser s) :: rest.map (fun s => (strOf s, ser s)))
        (strOf s) (ser s ++ [c s]) =
        (pre ++ [(strOf s, ser s ++ [c s])]) ++
          rest.map (fun s => (strOf s, ser s)) := by
      rw [dictSet_append_right pre _ (strOf s) _ hmem]
      simp [dictSet]
    have happ : tallyAppend
        (pre ++ (strOf s, ser s) :: rest.map (fun s => (strOf s, ser s)))
        (strOf s) (c s) =
        .ok ((pre ++ [(strOf s, ser s ++ [c s])]) ++
          rest.map (fun s => (strOf s, ser s))) := by
      unfold tallyAppend
      rw [hlook]
      exact congrArg Except.ok hset
    have hnext : (dictKeys (pre ++ [(strOf s, ser s ++ [c s])]) ++
        rest.map strOf).Nodup := by
      rw [dictKeys_append]
      have : dictKeys pre ++ dictKeys [(strOf s, ser s ++ [c s])] ++
          rest.map strOf = dictKeys pre ++ (s :: rest).map strOf := by
        simp [dictKeys]
      rw [this]
      exact h
    have hrec := ih (pre ++ [(strOf s, ser s ++ [c s])]) ser hnext
    calc tallyTick strOf c (s :: rest)
          (pre ++ (s :: rest).map (fun s => (strOf s, ser s)))
        = tallyTick strOf c rest
            ((pre ++ [(strOf s, ser s ++ [c s])]) ++
              rest.map (fun s => (strOf s, ser s))) := by
          simp only [tallyTick, List.map_cons]
          rw [happ]
      _ = .ok ((pre ++ [(strOf s, ser s ++ [c s])]) ++
            rest.map (fun s => (strOf s, ser s ++ [c s]))) := hrec
      _ = .ok (pre ++ (s :: rest).map
            (fun s => (strOf s, ser s ++ [c s]))) := by simp

/-- C6 amended: provided the tracked states have pairwise distinct str keys,
every sampling tick appends exactly one count to every series, so after n
ticks the tally holds one series per tracked state and all series have length
n (lock step); when a str key occurs more than once in the tracked list, the
shared series receives one count per occurrence each tick and the series
lengths diverge. -/
theorem stateMonitor_lockstep_of_nodup (strOf : BaseState → String)
    (countAt : Nat → BaseState → Nat) (states : List BaseState)
    (h : (states.map strOf).Nodup) (n : Nat) :
    ∃ t, runTicks strOf countAt states n = .ok t ∧
      dictKeys t = states.map strOf ∧ ∀ p ∈ t, p.2.length = n := by
  have key : ∀ m : Nat, ∃ ser : BaseState → List Nat,
      runTicks strOf countAt states m =
        .ok (states.map (fun s => (strOf s, ser s))) ∧
      ∀ s, (ser s).length = m := by
    intro m
    induction m with
    | zero =>
      refine ⟨fun _ => [], ?_, fun s => rfl⟩
      have hinit : tallyInit strOf states =
          states.map (fun s => (strOf s, [])) := by
        unfold tallyInit
        rw [tallyInit_fresh strOf states [] (by simpa using h)]
        simp
      simp only [runTicks, hinit]
    | succ m ihm =>
      obtain ⟨ser, hrun, hlen⟩ := ihm
      refine ⟨fun s => ser s ++ [countAt m s], ?_, fun s => by
        simp [hlen s]⟩
      simp only [runTicks]
      rw [hrun]
      have := tallyTick_aligned strOf (countAt m) states [] ser
        (by simpa using h)
      simpa using this
  obtain ⟨ser, hrun, hlen⟩ := key n
  refine ⟨states.map (fun s => (strOf s, ser s)), hrun, ?_, ?_⟩
  · simp [dictKeys]
  · intro p hp
    simp at hp
    obtain ⟨s, _, hps⟩ := hp
    rw [← hps]
    exact hlen s

/-- Witness for the C6 amended theorem with two distinctly keyed tracked
states and two ticks. -/
theorem stateMonitor_lockstep_of_nodup_witness :
    ∃ t, runTicks identStr (fun _ _ => 0) [stateA, stateB] 2 = .ok t ∧
      dictKeys t = [stateA, stateB].map identStr ∧
      ∀ p ∈ t, p.2.length = 2 :=
  stateMonitor_lockstep_of_nodup identStr (fun _ _ => 0) [stateA, stateB]
    (by decide) 2

/-! ## Agent construction and process registration (agents.py, core.py) -/

/-- Scheduler registration state of the simpy environment as seen from the
nxsim code: a counter allocating ids to generator objects, and the registered
processes in registration order, each recorded as (generator id, ref of the
owning agent). -/
structure Sched where
  nextGen : Nat
  procs : List (Nat × Nat)
  deriving DecidableEq, Repr

/-- simpy env.process(g): registers the generator as a new process. -/
def Sched.addProc (sc : Sched) (g owner : Nat) : Sched :=
  { sc with procs := sc.procs ++ [(g, owner)] }

/-- Shape of the run attribute of a concrete agent type: agents.py
BaseAgent.run lines 49-51 is a plain method that raises NotImplementedError,
while a concrete agent type overrides it with a generator method. -/
inductive RunBehavior where
  | notOverridden
  | generator
  deriving DecidableEq, Repr

/-- Python call agent.run(): the base method (agents.py lines 49-51) raises
NotImplementedError at the call itself; an overriding generator method
returns a fresh generator object on every call, without running its body. -/
def callRun (b : RunBehavior) (sc : Sched) : Except PyErr (Nat × Sched) :=
  match b with
  | .notOverridden => .error .notImplementedError
  | .generator => .ok (sc.nextGen, { sc with nextGen := sc.nextGen + 1 })

/-- agents.py BaseAgent.__init__ lines 15-47: after recording the agent
fields, line 47 runs self.action = self.env.process(self.run()), so
construction itself calls run() and registers the resulting generator as a
scheduler process, independently of any registry insertion; when run is not
overridden the call raises before anything is registered. -/
def baseAgentInit (sc : Sched) (b : RunBehavior) (aref : Nat) :
    Except PyErr Sched :=
  match callRun b sc with
  | .error e => .error e
  | .ok (g, sc1) => .ok (sc1.addProc g aref)

/-- core.py BaseEnvironment.__setitem__ lines 175-179 with its scheduling side
effect: assert the key absent, store the agent ref, then run
self.process(agent.run()), which calls run() again, creating a second
generator of the same agent behavior and registering it
(environment.py lines 49-52 are identical apart from the assert). -/
def setitemSched {K : Type} [DecidableEq K] (struct : List (K × Nat))
    (sc : Sched) (k : K) (b : RunBehavior) (aref : Nat) :
    Except PyErr (List (K × Nat) × Sched) :=
  match dictLookup struct k with
  | some _ => .error .assertionError
  | none =>
    match callRun b sc with
    | .error e => .error e
    | .ok (g, sc1) => .ok (dictSet struct k aref, sc1.addProc g aref)

/-- C7: an agent whose concrete type does not override run fails fast with
NotImplementedError already at construction (BaseAgent.__init__ line 47 calls
self.run(), and the base run raises at the call), before any process is
registered, hence no later than its first scheduled resumption and never
silently doing nothing; by contrast a generator run is accepted and
registered. -/
theorem baseAgent_run_not_overridden_fails_fast (sc : Sched) (aref : Nat) :
    baseAgentInit sc .notOverridden aref = .error .notImplementedError ∧
    baseAgentInit sc .generator aref =
      .ok ⟨sc.nextGen + 1, sc.procs ++ [(sc.nextGen, aref)]⟩ := by
  constructor
  · rfl
  · rfl

/-- C9: constructing an agent registers one fresh generator of its run
behavior with the scheduler, independently of registry insertion; inserting
that same agent into an environment via setitem then registers a second,
distinct generator of the same behavior, so two copies of the behavior are
registered for the scheduler to execute. -/
theorem init_and_setitem_schedule_twice {K : Type} [DecidableEq K]
    (sc : Sched) (struct : List (K × Nat)) (k : K) (aref : Nat)
    (h : dictLookup struct k = none) :
    ∃ sc1 res, baseAgentInit sc .generator aref = .ok sc1 ∧
      setitemSched struct sc1 k .generator aref = .ok res ∧
      res.2.procs = sc.procs ++ [(sc.nextGen, aref), (sc.nextGen + 1, aref)] ∧
      sc.nextGen ≠ sc.nextGen + 1 := by
  refine ⟨⟨sc.nextGen + 1, sc.procs ++ [(sc.nextGen, aref)]⟩,
    (dictSet struct k aref,
      ⟨sc.nextGen + 2, sc.procs ++ [(sc.nextGen, aref), (sc.nextGen + 1, aref)]⟩),
    rfl, ?_, by simp, by simp⟩
  unfold setitemSched
  rw [h]
  simp [callRun, Sched.addProc]

/-- Witness for the C9 theorem on an empty registry and fresh scheduler. -/
theorem init_and_setitem_schedule_twice_witness :
    ∃ sc1 res, baseAgentInit ⟨0, []⟩ .generator 7 = .ok sc1 ∧
      setitemSched ([] : List (Nat × Nat)) sc1 0 .generator 7 = .ok res ∧
      res.2.procs = [] ++ [(0, 7), (0 + 1, 7)] ∧ (0 : Nat) ≠ 0 + 1 :=
  init_and_setitem_schedule_twice ⟨0, []⟩ [] 0 7 rfl

/-! ## Discrete event scheduler

Modelled from the spec: the scheduler is simpy.Environment, an external
dependency whose code is not under src; spec section 4.1 describes it as a min
priority queue keyed by (resumption_time, insertion_sequence), where run(until)
repeatedly pops the earliest entry, stops when its time exceeds until, and
otherwise advances current time and resumes the process, which either yields
its next timeout (re enqueued at now + duration with a fresh sequence number)
or terminates. Processes whose behavior requests a fixed sequence of timeouts
are modelled as that sequence. The rng field carries the hidden class level
random generator state (BaseAgent.r in agents.py lines 10-13, seeded with SEED
from constants.py); processes with fixed timeout sequences never consult
it. -/

/-- Modelled from the spec: a process requesting a fixed sequence of timeout
durations, identified by a process id. -/
structure Proc where
  pid : Nat
  timeouts : List Nat
  deriving DecidableEq, Repr

/-- Modelled from the spec: a pending queue entry holding the resumption time,
the insertion sequence number, the process id, and the remaining timeout
durations of the process. -/
structure Ev where
  time : Nat
  seq : Nat
  pid : Nat
  rest : List Nat
  deriving DecidableEq, Repr

/-- Modelled from the spec: the priority order (resumption_time,
insertion_sequence). -/
def evLE (a b : Ev) : Bool :=
  a.time < b.time || (a.time == b.time && a.seq ≤ b.seq)

/-- Modelled from the spec: remove the minimum priority entry from the queue,
keeping the remaining entries in order; ties favor the earlier entry. -/
def popMin : List Ev → Option (Ev × List Ev)
  | [] => none
  | e :: es =>
    match popMin es with
    | none => some (e, [])
    | some (m, rest) => if evLE e m then some (e, es) else some (m, e :: rest)

/-- Modelled from the spec: scheduler state with current simulated time, the
pending event queue, the next insertion sequence number, and the hidden random
generator state. -/
structure SchedState where
  now : Nat
  queue : List Ev
  nextSeq : Nat
  rng : Nat
  deriving DecidableEq, Repr

/-- Modelled from the spec: the run loop, with fuel bounding the number of
scheduler steps. Each resumption appends (time, pid) to the execution trace; a
process with remaining timeouts is re enqueued at now + duration with a fresh
sequence number, otherwise it terminates and is dropped. -/
def runAux (til : Nat) : Nat → SchedState → List (Nat × Nat)
  | 0, _ => []
  | fuel + 1, st =>
    match popMin st.queue with
    | none => []
    | some (e, rest) =>
      if til < e.time then []
      else
        match e.rest with
        | [] => (e.time, e.pid) ::
            runAux til fuel { st with now := e.time, queue := rest }
        | d :: ds => (e.time, e.pid) ::
            runAux til fuel
              { st with now := e.time,
                        queue := rest ++ [⟨e.time + d, st.nextSeq, e.pid, ds⟩],
                        nextSeq := st.nextSeq + 1 }

/-- Modelled from the spec: processes registered with process(coroutine) are
resumable immediately, so every process starts queued at time 0 with its
registration order as sequence number. -/
def initState (procs : List Proc) (rng : Nat) : SchedState :=
  ⟨0, procs.enum.map (fun p => ⟨0, p.1, p.2.pid, p.2.timeouts⟩),
    procs.length, rng⟩

/-- Fuel sufficient for a full run: one scheduler step per event that can ever
be enqueued. -/
def fuelFor (procs : List Proc) : Nat :=
  procs.foldl (fun n p => n + p.timeouts.length + 1) 0

/-- Modelled from the spec: run(until) from a fresh scheduler holding the
given processes, returning the execution trace of (time, pid) resumptions. -/
def runSched (til : Nat) (procs : List Proc) (rng : Nat) : List (Nat × Nat) :=
  runAux til (fuelFor procs) (initState procs rng)

theorem runAux_rng (til : Nat) : ∀ (fuel now : Nat) (q : List Ev)
    (ns r1 r2 : Nat),
    runAux til fuel ⟨now, q, ns, r1⟩ = runAux til fuel ⟨now, q, ns, r2⟩ := by
  intro fuel
  induction fuel with
  | zero => intro _ _ _ _ _; rfl
  | succ fuel ih =>
    intro now q ns r1 r2
    simp only [runAux]
    cases hp : popMin q with
    | none => rfl
    | some pr =>
      obtain ⟨e, rest⟩ := pr
      by_cases htl : til < e.time
      · simp [htl]
      · cases hre : e.rest with
        | nil => simp only [htl, if_false, hre]; rw [ih]
        | cons d ds => simp only [htl, if_false, hre]; rw [ih]

/-- C8: the execution trace of run(until) is a pure function of the registered
processes and their fixed timeout sequences: it does not depend on the hidden
random generator state (the only hidden mutable state, BaseAgent.r, which is
moreover deterministically seeded), so two executions from the same initial
configuration produce identical process execution order, and in particular
every process, a Monitor included, observes the identical subsequence of
resumptions on both runs. -/
theorem scheduler_deterministic_rng_independent (til : Nat)
    (procs : List Proc) (rng1 rng2 : Nat) :
    runSched til procs rng1 = runSched til procs rng2 ∧
    ∀ pid, (runSched til procs rng1).filter (fun ev => ev.2 == pid) =
      (runSched til procs rng2).filter (fun ev => ev.2 == pid) := by
  have h : runSched til procs rng1 = runSched til procs rng2 := by
    unfold runSched initState
    exact runAux_rng til (fuelFor procs) 0 _ procs.length rng1 rng2
  exact ⟨h, fun pid => by rw [h]⟩

/-! ## BaseLoggingAgent double registration and state history (agents.py) -/

/-- agents.py BaseLoggingAgent.__init__ lines 209-233: super().__init__
registers one generator of run through BaseAgent.__init__ line 47, and line
223 runs self.action = self.env.process(self.run()) once more, registering a
second fresh generator of the same run method. -/
def loggingAgentInit (sc : Sched) (aref : Nat) : Except PyErr Sched :=
  match baseAgentInit sc .generator aref with
  | .error e => .error e
  | .ok sc1 =>
    match callRun .generator sc1 with
    | .error e => .error e
    | .ok (g, sc2) => .ok (sc2.addProc g aref)

/-- Scheduler processes created by constructing one BaseLoggingAgent: the two
registered copies of its run generator (process ids 1 and 2), each a loop of n
timeouts of the logging interval (agents.py lines 229-233). -/
def loggerProcs (interval n : Nat) : List Proc :=
  [⟨1, List.replicate n interval⟩, ⟨2, List.replicate n interval⟩]

/-- Execution trace of a run with the two logger process copies. -/
def loggerTrace (interval n til : Nat) : List (Nat × Nat) :=
  runSched til (loggerProcs interval n) 0

/-- agents.py BaseLoggingAgent.run line 232: every resumption stores the
snapshot under key self.env.now in the state_history dict, so a second write
at the same time overwrites the first; the stored value is modelled by the id
of the writing process. -/
def loggerHistory (interval n til : Nat) : List (Nat × Nat) :=
  (loggerTrace interval n til).foldl (fun h ev => dictSet h ev.1 ev.2) []

theorem dictKeys_dictSet_iff {K A : Type} [DecidableEq K]
    (d : List (K × A)) (k t : K) (v : A) :
    t ∈ dictKeys (dictSet d k v) ↔ t ∈ dictKeys d ∨ t = k := by
  induction d with
  | nil => simp [dictSet, dictKeys]
  | cons p rest ih =>
    obtain ⟨k1, a1⟩ := p
    by_cases h1 : k1 = k
    · subst h1
      simp [dictSet, dictKeys]
      tauto
    · simp only [dictSet, if_neg h1, dictKeys, List.map_cons,
        List.mem_cons] at ih ⊢
      rw [ih]
      tauto

theorem dictKeys_nodup_dictSet {K A : Type} [DecidableEq K]
    (d : List (K × A)) (k : K) (v : A) (h : (dictKeys d).Nodup) :
    (dictKeys (dictSet d k v)).Nodup := by
  by_cases hk : k ∈ dictKeys d
  · rw [dictKeys_dictSet_mem d k v hk]; exact h
  · rw [dictSet_not_mem d k v hk, dictKeys_append]
    simp [dictKeys, List.nodup_append, h]
    refine ⟨h, ?_⟩
    intro x hx
    exact hk (List.mem_map_of_mem Prod.fst hx)

theorem dictKeys_nodup_foldl_writes {K A : Type} [DecidableEq K] :
    ∀ (ws : List (K × A)) (h0 : List (K × A)), (dictKeys h0).Nodup →
      (dictKeys (ws.foldl (fun h ev => dictSet h ev.1 ev.2) h0)).Nodup := by
  intro ws
  induction ws with
  | nil => intro h0 h; exact h
  | cons w rest ih =>
    intro h0 h
    exact ih _ (dictKeys_nodup_dictSet _ _ _ h)

theorem dictKeys_foldl_writes_iff {K A : Type} [DecidableEq K] :
    ∀ (ws : List (K × A)) (h0 : List (K × A)) (t : K),
      t ∈ dictKeys (ws.foldl (fun h ev => dictSet h ev.1 ev.2) h0) ↔
        t ∈ dictKeys h0 ∨ ∃ v, (t, v) ∈ ws := by
  intro ws
  induction ws with
  | nil => intro h0 t; simp
  | cons w rest ih =>
    intro h0 t
    obtain ⟨k, v⟩ := w
    simp only [List.foldl_cons]
    rw [ih, dictKeys_dictSet_iff]
    constructor
    · rintro (⟨h | h⟩ | ⟨v2, h⟩)
      · exact Or.inl h
      · exact Or.inr ⟨v, by simp [h]⟩
      · exact Or.inr ⟨v2, by simp [h]⟩
    · rintro (h | ⟨v2, h⟩)
      · exact Or.inl (Or.inl h)
      · rcases List.mem_cons.mp h with h2 | h2
        · exact Or.inl (Or.inr (congrArg Prod.fst h2))
        · exact Or.inr ⟨v2, h2⟩

/-- C10: constructing a BaseLoggingAgent registers its run generator with the
scheduler twice (once through the BaseAgent constructor, once explicitly), and
nevertheless the state_history dictionary holds exactly one entry per sampled
time value: its keys have no duplicates and are exactly the times at which
either registered copy ran, because both copies write under the same key
self.env.now and the later write overwrites the earlier one, as the concrete
run with interval 1 shows: both copies resume at times 0, 1 and 2, and every
surviving history entry carries the value written by the second copy. -/
theorem logging_agent_history_one_entry_per_time (interval n til : Nat) :
    (∀ sc aref, loggingAgentInit sc aref =
      .ok ⟨sc.nextGen + 2,
        sc.procs ++ [(sc.nextGen, aref), (sc.nextGen + 1, aref)]⟩) ∧
    (dictKeys (loggerHistory interval n til)).Nodup ∧
    (∀ t, t ∈ dictKeys (loggerHistory interval n til) ↔
      ∃ pid, (t, pid) ∈ loggerTrace interval n til) ∧
    loggerTrace 1 2 2 = [(0, 1), (0, 2), (1, 1), (1, 2), (2, 1), (2, 2)] ∧
    loggerHistory 1 2 2 = [(0, 2), (1, 2), (2, 2)] := by
  refine ⟨fun sc aref => by
    simp [loggingAgentInit, baseAgentInit, callRun, Sched.addProc], ?_, ?_,
    rfl, rfl⟩
  · exact dictKeys_nodup_foldl_writes _ [] (by simp [dictKeys])
  · intro t
    rw [loggerHistory, dictKeys_foldl_writes_iff]
    simp [dictKeys]

end NxSim
